import Mathlib

/-!
Shallow embedding of the `docling-diretorio` batch-conversion scripts
(`convert_directory.py` and `interactive_cli.py`).

Filesystem paths are modelled as lists of components (an absolute path
`/a/b` is `["a", "b"]`).  A filesystem is a finite list of entries, each a
path tagged as a regular file or a directory; enumeration order of
`rglob` is the entry-list order (the Python traversal order is
OS-dependent and the spec makes no ordering promise for enumeration).
The external `docling` executable is an oracle: a `found` flag (is the
executable on `PATH`) and a function from the command line to the
captured process result.  OS-level failures of `mkdir`/`open` (permission
errors, a file colliding with a directory being created) are outside the
model: directory creation always succeeds, as on the scripts' happy path.
-/

namespace DoclingDir

/-- A filesystem path, as the list of its components (absolute, already
resolved — the scripts resolve paths before the logic modelled here). -/
abbrev FPath := List String

/-- Kind of a filesystem entry. -/
inductive EntryKind where
  | file
  | dir
deriving DecidableEq

/-- A finite filesystem: a list of (path, kind) entries. -/
structure FS where
  entries : List (FPath × EntryKind)
deriving DecidableEq

/-- `Path.is_file()`: the path is listed as a regular file. -/
def FS.isFile (fs : FS) (p : FPath) : Bool :=
  decide ((p, EntryKind.file) ∈ fs.entries)

/-- `Path.is_dir()`: the path is listed as a directory. -/
def FS.isDir (fs : FS) (p : FPath) : Bool :=
  decide ((p, EntryKind.dir) ∈ fs.entries)

/-- `Path.exists()`: the path is listed, as a file or as a directory. -/
def FS.pathExists (fs : FS) (p : FPath) : Bool :=
  fs.isFile p || fs.isDir p

/-- `a` is a path prefix of `b` (used for `relative_to` and for recursive
directory traversal). -/
def isUnder : FPath → FPath → Bool
  | [], _ => true
  | _ :: _, [] => false
  | a :: as, b :: bs => a == b && isUnder as bs

/-- `source.rglob("*")`: every entry strictly below `source`, in entry-list
order (files and directories alike, as in `pathlib`). -/
def FS.rglob (fs : FS) (source : FPath) : List FPath :=
  (fs.entries.filter
    (fun e => isUnder source e.1 && decide (source.length < e.1.length))).map Prod.fst

/-- The nonempty path prefixes of `p`, shortest first (`p` itself last). -/
def ancestorsOf (p : FPath) : List FPath :=
  (List.range p.length).map (fun i => p.take (i + 1))

/-- `p.mkdir(parents=True, exist_ok=True)`: add a directory entry for every
prefix of `p` that is not yet a directory. -/
def FS.mkdirParents (fs : FS) (p : FPath) : FS :=
  ⟨fs.entries ++
    ((ancestorsOf p).filter (fun q => !(fs.isDir q))).map (fun q => (q, EntryKind.dir))⟩

/-- Opening a path for writing creates the file entry (content tracked
separately). -/
def FS.addFile (fs : FS) (p : FPath) : FS :=
  if fs.isFile p then fs else ⟨fs.entries ++ [(p, EntryKind.file)]⟩

/-- `Path.name`: the final path component (`""` for the root). -/
def pathName (p : FPath) : String :=
  (p.getLast?).getD ""

/-- `str(Path)` for an absolute path: each component prefixed by `/`. -/
def pathStr (p : FPath) : String :=
  String.join (p.map (fun c => "/" ++ c))

/-- `PurePath.suffix`: the extension of the final component, `name[i:]` for
the last dot index `i` when `0 < i < len(name) - 1`, else `""`. -/
def pySuffix (name : String) : String :=
  let cs := name.toList
  match ((cs.enum.filter (fun x => x.2 == '.')).map Prod.fst).getLast? with
  | some i => if 0 < i && i + 1 < cs.length then String.mk (cs.drop i) else ""
  | none => ""

/-- `PurePath.stem`: the final component without its `pySuffix`. -/
def pyStem (name : String) : String :=
  let cs := name.toList
  match ((cs.enum.filter (fun x => x.2 == '.')).map Prod.fst).getLast? with
  | some i => if 0 < i && i + 1 < cs.length then String.mk (cs.take i) else name
  | none => name

/-- `str.lower()`, character by character (the extensions involved are
ASCII). -/
def strToLower (s : String) : String :=
  String.mk (s.toList.map Char.toLower)

/-- Does the character list `b` begin with the list `a`? -/
def leadEq : List Char → List Char → Bool
  | [], _ => true
  | _ :: _, [] => false
  | a :: as, b :: bs => a == b && leadEq as bs

/-- `str.startswith(pre)` / the glob pattern `f"{stem}*"` applied to a
name: the name begins with the literal `pre`. -/
def strStartsWith (s pre : String) : Bool :=
  leadEq pre.toList s.toList

/-- `SUPPORTED_SUFFIXES` from `convert_directory.py` (the interactive CLI
declares the identical set). -/
def SUPPORTED_SUFFIXES : List String :=
  [".pdf", ".doc", ".docx", ".ppt", ".pptx", ".xls", ".xlsx",
   ".csv", ".md", ".txt", ".html", ".htm", ".xml",
   ".jpg", ".jpeg", ".png", ".tiff", ".bmp", ".gif",
   ".wav", ".mp3", ".aac", ".flac"]

/-- Is a file's suffix (lower-cased) in the supported set?  This is the
filter `path.suffix.lower() in SUPPORTED_SUFFIXES`. -/
def suffixSupported (p : FPath) : Bool :=
  SUPPORTED_SUFFIXES.contains (strToLower (pySuffix (pathName p)))

/-- `iter_input_files` (`convert_directory.py:121-128`): a single file is
yielded as-is regardless of extension; a directory yields its recursive
descendants that are regular files with a supported suffix. -/
def iter_input_files (fs : FS) (source : FPath) : List FPath :=
  if fs.isFile source then [source]
  else (fs.rglob source).filter (fun p => fs.isFile p && suffixSupported p)

/-- `listar_arquivos_suportados` (`interactive_cli.py:62-68`): the directory
branch of the same enumeration. -/
def listar_arquivos_suportados (fs : FS) (diretorio : FPath) : List FPath :=
  (fs.rglob diretorio).filter (fun p => fs.isFile p && suffixSupported p)

/-- `file_path.parent.relative_to(source)`: defined only when `source` is a
prefix of the parent; `none` models the `ValueError`. -/
def relativeTo (p source : FPath) : Option FPath :=
  if isUnder source p then some (p.drop source.length) else none

/-- The destination directory computed in `convert_files`
(`convert_directory.py:233-241`): `output_root / relative_parent`, where
`relative_parent` is `file.parent.relative_to(source)` for a directory
source and `Path()` when the source is not a directory or `relative_to`
raises `ValueError`. -/
def destinationDir (fs : FS) (source outputRoot filePath : FPath) : FPath :=
  let relativeParent : FPath :=
    if fs.isDir source then
      match relativeTo filePath.dropLast source with
      | some r => r
      | none => []
    else []
  outputRoot ++ relativeParent

/-- `destination_dir.glob(f"{stem}*")`: the immediate children of `dir`
whose name starts with `stem` (files and directories; empty when `dir` is
not a directory, as `pathlib`'s selector checks `is_dir()` first). -/
def globStem (fs : FS) (dir : FPath) (stem : String) : List FPath :=
  if fs.isDir dir then
    (fs.entries.filter
      (fun e => e.1.dropLast == dir && decide (e.1.length = dir.length + 1)
        && strStartsWith (pathName e.1) stem)).map Prod.fst
  else []

/-- The captured result of `subprocess.run(cmd, capture_output=True)`. -/
structure ConvResult where
  returncode : Int
  out : String
  err : String

/-- The external `docling` executable: whether it is on `PATH`, and the
process result for a given command line. -/
structure Converter where
  found : Bool
  run : List String → ConvResult

/-- The `--to` arguments: present exactly when `output_format` is truthy
(`if output_format:` — absent for `None` and for the empty string). -/
def formatFlag : Option String → List String
  | none => []
  | some f => if f == "" then [] else ["--to", f]

/-- The command line built in `run_docling` (`convert_directory.py:258-261`):
`docling [--to <fmt>] --output <dir> <input>`. -/
def doclingCmd (inputFile outputDir : String) (fmt : Option String) : List String :=
  "docling" :: formatFlag fmt ++ ["--output", outputDir, inputFile]

/-- `run_docling` (`convert_directory.py:255-285`): create the destination
directory, run the command, succeed exactly on exit code 0; a missing
executable (`FileNotFoundError`) returns failure.  The `verbose` flag only
affects console echo and is not modelled. -/
def run_docling (conv : Converter) (fs : FS) (inputFile outputDir : FPath)
    (fmt : Option String) : FS × Bool :=
  let fs2 := fs.mkdirParents outputDir
  if conv.found then
    (fs2, (conv.run (doclingCmd (pathStr inputFile) (pathStr outputDir) fmt)).returncode == 0)
  else
    (fs2, false)

/-- State threaded through the `convert_files` loop: the filesystem, the
accumulated `failures` list of the code, and two instrumentation lists
recording which files were attempted (passed to `run_docling`) and which
were skipped by the `--skip-existing` policy. -/
structure BatchState where
  fs : FS
  failures : List FPath
  attempted : List FPath
  skipped : List FPath
deriving DecidableEq

/-- One iteration of the `convert_files` loop
(`convert_directory.py:233-251`). -/
def convertStep (conv : Converter) (source outputRoot : FPath) (fmt : Option String)
    (skipExisting : Bool) (st : BatchState) (filePath : FPath) : BatchState :=
  let dest := destinationDir st.fs source outputRoot filePath
  if skipExisting && st.fs.pathExists dest
      && !(globStem st.fs dest (pyStem (pathName filePath))).isEmpty then
    { st with skipped := st.skipped ++ [filePath] }
  else
    let r := run_docling conv st.fs filePath dest fmt
    { st with
        fs := r.1
        attempted := st.attempted ++ [filePath]
        failures := if r.2 then st.failures else st.failures ++ [filePath] }

/-- `convert_files` (`convert_directory.py:223-252`): fold the per-file step
over the enumerated files; the caller passes the initial state (the code
starts with an empty `failures` list). -/
def convert_files (conv : Converter) (files : List FPath) (source outputRoot : FPath)
    (fmt : Option String) (skipExisting : Bool) (st : BatchState) : BatchState :=
  files.foldl (convertStep conv source outputRoot fmt skipExisting) st

/-- A text file whose lines are exactly `ls`, each terminated by a
newline. -/
def linesOf (ls : List String) : String :=
  String.join (ls.map (fun s => s ++ "\n"))

/-- The content written by `write_failure_report`
(`convert_directory.py:210-220`): a header line, then one line per failed
path. -/
def write_failure_report (failedFiles : List FPath) : String :=
  "Files that failed conversion:\n"
    ++ String.join (failedFiles.map (fun p => pathStr p ++ "\n"))

/-- The observable outcome of one batch-driver run. -/
structure RunResult where
  exitCode : Nat
  failures : List FPath
  attempted : List FPath
  skipped : List FPath
  report : Option (FPath × String)
  fs : FS

/-- `main` (`convert_directory.py:288-323`): exit 1 when the resolved source
does not exist; exit 0 when no supported file is enumerated; otherwise
create the output root, convert, and exit 2 with a failure report when any
file failed, else exit 0. -/
def main_run (fs0 : FS) (conv : Converter) (source outputRoot : FPath)
    (fmt : Option String) (skipExisting : Bool) : RunResult :=
  if fs0.pathExists source = false then
    ⟨1, [], [], [], none, fs0⟩
  else
    let files := iter_input_files fs0 source
    if files.isEmpty then
      ⟨0, [], [], [], none, fs0⟩
    else
      let fs1 := fs0.mkdirParents outputRoot
      let st := convert_files conv files source outputRoot fmt skipExisting ⟨fs1, [], [], []⟩
      if st.failures.isEmpty then
        ⟨0, st.failures, st.attempted, st.skipped, none, st.fs⟩
      else
        let reportPath := outputRoot ++ ["failed_conversions.txt"]
        ⟨2, st.failures, st.attempted, st.skipped,
          some (reportPath, write_failure_report st.failures),
          (st.fs.mkdirParents outputRoot).addFile reportPath⟩

/-- `solicitar_caminho_diretorio` (`interactive_cli.py:47-59`): consume the
operator's answers in order (`none` models a blank line, `some p` an answer
resolving to path `p`) until one exists and is a directory; `none` when the
answers run out (the real loop would keep prompting). -/
def solicitar_caminho_diretorio (fs : FS) : List (Option FPath) → Option FPath
  | [] => none
  | none :: rest => solicitar_caminho_diretorio fs rest
  | some p :: rest =>
    if fs.pathExists p && fs.isDir p then some p
    else solicitar_caminho_diretorio fs rest

/-! ### Concrete converters used as instantiation data -/

/-- A converter that is installed and always exits 0. -/
def convAllOk : Converter := ⟨true, fun _ => ⟨0, "", ""⟩⟩

/-- A converter executable that is missing from `PATH`. -/
def convNotFound : Converter := ⟨false, fun _ => ⟨1, "", ""⟩⟩

/-- A converter that is installed and always exits 1. -/
def convAllFail : Converter := ⟨true, fun _ => ⟨1, "", "boom"⟩⟩

/-! ### Concrete filesystems used as instantiation data -/

/-- Tree with a supported file with an upper-case extension, a supported
file in a subdirectory, and an unsupported file. -/
def fsEnum : FS :=
  ⟨[(["d"], EntryKind.dir), (["d", "A.PDF"], EntryKind.file),
    (["d", "sub"], EntryKind.dir), (["d", "sub", "b.docx"], EntryKind.file),
    (["d", "x.exe"], EntryKind.file)]⟩

/-- The spec's `/a/b` destination example. -/
def fsTree : FS :=
  ⟨[(["a", "b"], EntryKind.dir), (["a", "b", "x.pdf"], EntryKind.file),
    (["a", "b", "sub"], EntryKind.dir), (["a", "b", "sub", "y.docx"], EntryKind.file)]⟩

/-- `/out` contains `yellow.txt`: its name matches the glob `y*` although its
stem is `yellow`, not `y`. -/
def fsYellow : FS :=
  ⟨[(["src"], EntryKind.dir), (["src", "y.docx"], EntryKind.file),
    (["out"], EntryKind.dir), (["out", "yellow.txt"], EntryKind.file)]⟩

/-- The spec's skip example: `/out/sub` already holds `y.md`. -/
def fsSkipW : FS :=
  ⟨[(["src"], EntryKind.dir), (["src", "sub"], EntryKind.dir),
    (["src", "sub", "y.docx"], EntryKind.file),
    (["out"], EntryKind.dir), (["out", "sub"], EntryKind.dir),
    (["out", "sub", "y.md"], EntryKind.file)]⟩

/-- A source directory with one supported file. -/
def fsOne : FS :=
  ⟨[(["src"], EntryKind.dir), (["src", "a.pdf"], EntryKind.file)]⟩

/-- A directory and a top-level regular file, for the prompt loop. -/
def fsPrompt : FS :=
  ⟨[(["d"], EntryKind.dir), (["f.txt"], EntryKind.file)]⟩

/-- A source directory with two supported files. -/
def fsBatch : FS :=
  ⟨[(["src"], EntryKind.dir), (["src", "a.pdf"], EntryKind.file),
    (["src", "b.md"], EntryKind.file)]⟩

/-! ### Helper lemmas -/

theorem length_filter_split {α : Type} (p : α → Bool) (l : List α) :
    (l.filter p).length + (l.filter (fun a => !p a)).length = l.length := by
  induction l with
  | nil => simp
  | cons x xs ih =>
    by_cases h : p x = true
    · simp [List.filter_cons, h, ← ih]; omega
    · simp only [Bool.not_eq_true] at h
      simp [List.filter_cons, h, ← ih]; omega

theorem foldl_append_str (l : List String) (a b : String) :
    l.foldl (· ++ ·) (a ++ b) = a ++ l.foldl (· ++ ·) b := by
  induction l generalizing b with
  | nil => simp
  | cons x xs ih => simp only [List.foldl_cons, String.append_assoc, ih]

theorem join_cons' (a : String) (l : List String) :
    String.join (a :: l) = a ++ String.join l := by
  have h := foldl_append_str l a ""
  simp only [String.join, List.foldl_cons]
  simpa using h

theorem write_failure_report_lines (l : List FPath) :
    write_failure_report l
      = linesOf ("Files that failed conversion:" :: l.map pathStr) := by
  simp [write_failure_report, linesOf, join_cons', List.map_map, Function.comp_def]

theorem isDir_iff_mem {fs : FS} {q : FPath} :
    fs.isDir q = true ↔ (q, EntryKind.dir) ∈ fs.entries := by
  simp [FS.isDir]

theorem isDir_mkdirParents_of {fs : FS} (p : FPath) {q : FPath}
    (h : fs.isDir q = true) : (fs.mkdirParents p).isDir q = true := by
  rw [isDir_iff_mem] at h ⊢
  exact List.mem_append_left _ h

theorem isDir_addFile_of {fs : FS} (p : FPath) {q : FPath}
    (h : fs.isDir q = true) : (fs.addFile p).isDir q = true := by
  rw [isDir_iff_mem] at h ⊢
  unfold FS.addFile
  split
  · exact h
  · exact List.mem_append_left _ h

theorem isDir_mkdirParents_self (fs : FS) (p : FPath) (hp : p ≠ []) :
    (fs.mkdirParents p).isDir p = true := by
  by_cases h : fs.isDir p = true
  · exact isDir_mkdirParents_of p h
  · rw [isDir_iff_mem]
    unfold FS.mkdirParents
    apply List.mem_append_right
    apply List.mem_map.mpr
    refine ⟨p, List.mem_filter.mpr ⟨?_, by simp [h]⟩, rfl⟩
    unfold ancestorsOf
    apply List.mem_map.mpr
    refine ⟨p.length - 1, List.mem_range.mpr ?_, ?_⟩
    · have : p.length ≠ 0 := fun h0 => hp (List.eq_nil_of_length_eq_zero h0)
      omega
    · have : p.length - 1 + 1 = p.length := by
        have : p.length ≠ 0 := fun h0 => hp (List.eq_nil_of_length_eq_zero h0)
        omega
      rw [this, List.take_length]

theorem run_docling_fst (conv : Converter) (fs : FS) (i o : FPath) (fmt : Option String) :
    (run_docling conv fs i o fmt).1 = fs.mkdirParents o := by
  simp only [run_docling]
  split <;> rfl

theorem run_docling_notFound (conv : Converter) (fs : FS) (i o : FPath) (fmt : Option String)
    (h : conv.found = false) : (run_docling conv fs i o fmt).2 = false := by
  simp [run_docling, h]

theorem convertStep_isDir {conv : Converter} {source out : FPath} {fmt : Option String}
    {sk : Bool} {st : BatchState} {f q : FPath} (h : st.fs.isDir q = true) :
    (convertStep conv source out fmt sk st f).fs.isDir q = true := by
  simp only [convertStep]
  split
  · exact h
  · show ((run_docling conv st.fs f _ fmt).1.isDir q) = true
    rw [run_docling_fst]
    exact isDir_mkdirParents_of _ h

theorem convert_files_isDir {conv : Converter} {source out : FPath} {fmt : Option String}
    {sk : Bool} {q : FPath} (files : List FPath) :
    ∀ st : BatchState, st.fs.isDir q = true →
      (convert_files conv files source out fmt sk st).fs.isDir q = true := by
  induction files with
  | nil => intro st h; exact h
  | cons f rest ih =>
    intro st h
    exact ih _ (convertStep_isDir h)

theorem convert_files_cons (conv : Converter) (source out : FPath) (fmt : Option String)
    (sk : Bool) (f : FPath) (rest : List FPath) (st : BatchState) :
    convert_files conv (f :: rest) source out fmt sk st
      = convert_files conv rest source out fmt sk
          (convertStep conv source out fmt sk st f) := rfl

theorem convertStep_skip_or_attempt (conv : Converter) (source out : FPath)
    (fmt : Option String) (sk : Bool) (st : BatchState) (f : FPath) :
    (convertStep conv source out fmt sk st f = { st with skipped := st.skipped ++ [f] })
    ∨ ((convertStep conv source out fmt sk st f).attempted = st.attempted ++ [f]
        ∧ (convertStep conv source out fmt sk st f).skipped = st.skipped
        ∧ ((convertStep conv source out fmt sk st f).failures = st.failures
            ∨ (convertStep conv source out fmt sk st f).failures = st.failures ++ [f])) := by
  simp only [convertStep]
  split
  · exact Or.inl rfl
  · refine Or.inr ⟨rfl, rfl, ?_⟩
    split
    · exact Or.inl rfl
    · exact Or.inr rfl

theorem convert_files_length (conv : Converter) (source out : FPath) (fmt : Option String)
    (sk : Bool) (files : List FPath) :
    ∀ st : BatchState,
      (convert_files conv files source out fmt sk st).attempted.length
        + (convert_files conv files source out fmt sk st).skipped.length
      = st.attempted.length + st.skipped.length + files.length := by
  induction files with
  | nil => intro st; simp [convert_files]
  | cons f rest ih =>
    intro st
    rw [convert_files_cons, ih]
    rcases convertStep_skip_or_attempt conv source out fmt sk st f with h | ⟨h1, h2, _⟩
    · rw [h]; simp; omega
    · rw [h1, h2]; simp; omega

theorem convert_files_failures_attempted (conv : Converter) (source out : FPath)
    (fmt : Option String) (sk : Bool) (hfound : conv.found = false) (files : List FPath) :
    ∀ st : BatchState, st.failures = st.attempted →
      (convert_files conv files source out fmt sk st).failures
        = (convert_files conv files source out fmt sk st).attempted := by
  induction files with
  | nil => intro st h; exact h
  | cons f rest ih =>
    intro st h
    rw [convert_files_cons]
    apply ih
    simp only [convertStep]
    split
    · exact h
    · simp [run_docling_notFound conv _ _ _ _ hfound, h]

theorem convert_files_all_fail (conv : Converter) (source out : FPath)
    (fmt : Option String) (hfound : conv.found = false) (files : List FPath) :
    ∀ st : BatchState,
      (convert_files conv files source out fmt false st).failures
        = st.failures ++ files := by
  induction files with
  | nil => intro st; simp [convert_files]
  | cons f rest ih =>
    intro st
    rw [convert_files_cons, ih]
    simp only [convertStep, Bool.false_and, Bool.false_eq_true, if_neg, ite_false]
    simp [run_docling_notFound conv _ _ _ _ hfound]

/-! ### Claims -/

/-- C2: for a directory source, enumeration yields exactly the regular-file
descendants whose lower-cased extension is in the supported set — the
supported files among `N` supported and `M` unsupported descendants — and
the interactive CLI's `listar_arquivos_suportados` computes the same list. -/
theorem enumeration_filter_correct (fs : FS) (source : FPath)
    (_hdir : fs.isDir source = true) (hnotfile : fs.isFile source = false) :
    (iter_input_files fs source
        = ((fs.rglob source).filter (fun p => fs.isFile p)).filter suffixSupported)
    ∧ ((iter_input_files fs source).length
        + (((fs.rglob source).filter (fun p => fs.isFile p)).filter
            (fun p => !suffixSupported p)).length
        = ((fs.rglob source).filter (fun p => fs.isFile p)).length)
    ∧ (∀ p, p ∈ iter_input_files fs source ↔
        ((p, EntryKind.file) ∈ fs.entries ∧ isUnder source p = true
          ∧ source.length < p.length ∧ suffixSupported p = true))
    ∧ iter_input_files fs source = listar_arquivos_suportados fs source := by
  have hbranch : iter_input_files fs source
      = (fs.rglob source).filter (fun p => fs.isFile p && suffixSupported p) := by
    simp [iter_input_files, hnotfile]
  have hff : iter_input_files fs source
      = ((fs.rglob source).filter (fun p => fs.isFile p)).filter suffixSupported := by
    rw [hbranch, List.filter_filter]
    apply List.filter_congr
    intro p _
    exact Bool.and_comm _ _
  refine ⟨hff, ?_, ?_, ?_⟩
  · rw [hff]
    exact length_filter_split _ _
  · intro p
    rw [hbranch]
    constructor
    · intro hp
      rcases List.mem_filter.mp hp with ⟨hmem, hcond⟩
      rcases Bool.and_eq_true_iff.mp hcond with ⟨hfile, hsupp⟩
      have hmem' : p ∈ (fs.entries.filter
          (fun e => isUnder source e.1 && decide (source.length < e.1.length))).map Prod.fst :=
        hmem
      rcases List.mem_map.mp hmem' with ⟨e, he, hep⟩
      rcases List.mem_filter.mp he with ⟨_, hec⟩
      rcases Bool.and_eq_true_iff.mp hec with ⟨hunder, hlen⟩
      refine ⟨?_, by rwa [hep] at hunder, by have := of_decide_eq_true hlen; rwa [hep] at this, hsupp⟩
      have : decide ((p, EntryKind.file) ∈ fs.entries) = true := hfile
      exact of_decide_eq_true this
    · rintro ⟨hmem, hunder, hlen, hsupp⟩
      apply List.mem_filter.mpr
      refine ⟨?_, ?_⟩
      · simp only [FS.rglob]
        apply List.mem_map.mpr
        refine ⟨(p, EntryKind.file), List.mem_filter.mpr ⟨hmem, ?_⟩, rfl⟩
        simp [hunder, hlen]
      · simp [FS.isFile, hmem, hsupp]
  · rw [hbranch]; rfl

/-- C3: a source that is a single regular file is enumerated as exactly that
one file, whatever its extension. -/
theorem single_file_enumeration (fs : FS) (source : FPath)
    (h : fs.isFile source = true) : iter_input_files fs source = [source] := by
  simp [iter_input_files, h]

/-- C4: the destination directory is the output root joined with the file's
parent taken relative to a directory source, and the output root itself
when the source is not a directory or the relative computation is
undefined. -/
theorem destination_mirrors (fs : FS) (source out f : FPath) :
    (fs.isDir source = true → isUnder source f.dropLast = true →
        destinationDir fs source out f = out ++ f.dropLast.drop source.length)
    ∧ (fs.isDir source = true → isUnder source f.dropLast = false →
        destinationDir fs source out f = out)
    ∧ (fs.isDir source = false → destinationDir fs source out f = out) := by
  refine ⟨fun hd hu => ?_, fun hd hu => ?_, fun hd => ?_⟩
  · simp [destinationDir, relativeTo, hd, hu]
  · simp [destinationDir, relativeTo, hd, hu]
  · simp [destinationDir, hd]

theorem enumeration_filter_correct_witness :
    (iter_input_files fsEnum ["d"] = [["d", "A.PDF"], ["d", "sub", "b.docx"]])
    ∧ ((["d", "x.exe"], EntryKind.file) ∈ fsEnum.entries
        ∧ ["d", "x.exe"] ∉ iter_input_files fsEnum ["d"]) :=
  ⟨((enumeration_filter_correct fsEnum ["d"] (by decide) (by decide)).1).trans (by decide),
   by decide⟩

theorem single_file_enumeration_witness :
    (iter_input_files ⟨[(["notes.xyz"], EntryKind.file)]⟩ ["notes.xyz"] = [["notes.xyz"]])
    ∧ suffixSupported ["notes.xyz"] = false :=
  ⟨single_file_enumeration ⟨[(["notes.xyz"], EntryKind.file)]⟩ ["notes.xyz"] (by decide),
   by decide⟩

theorem destination_mirrors_witness :
    destinationDir fsTree ["a", "b"] ["out"] ["a", "b", "x.pdf"] = ["out"]
    ∧ destinationDir fsTree ["a", "b"] ["out"] ["a", "b", "sub", "y.docx"] = ["out", "sub"] :=
  ⟨((destination_mirrors fsTree ["a", "b"] ["out"] ["a", "b", "x.pdf"]).1
      (by decide) (by decide)).trans (by decide),
   ((destination_mirrors fsTree ["a", "b"] ["out"] ["a", "b", "sub", "y.docx"]).1
      (by decide) (by decide)).trans (by decide)⟩

/-- C1: the batch driver's exit code is exactly one of 0, 1, 2: code 1
exactly when the resolved source does not exist (and then nothing was
attempted), code 2 exactly when the source exists and some file failed,
code 0 exactly when the source exists and no file failed (including the
zero-files run). -/
theorem exit_code_trichotomy (fs0 : FS) (conv : Converter) (source out : FPath)
    (fmt : Option String) (sk : Bool) :
    ((main_run fs0 conv source out fmt sk).exitCode = 0
      ∨ (main_run fs0 conv source out fmt sk).exitCode = 1
      ∨ (main_run fs0 conv source out fmt sk).exitCode = 2)
    ∧ ((main_run fs0 conv source out fmt sk).exitCode = 1 ↔ fs0.pathExists source = false)
    ∧ ((main_run fs0 conv source out fmt sk).exitCode = 1 →
        (main_run fs0 conv source out fmt sk).attempted = [])
    ∧ ((main_run fs0 conv source out fmt sk).exitCode = 2 ↔
        (fs0.pathExists source = true ∧ (main_run fs0 conv source out fmt sk).failures ≠ []))
    ∧ ((main_run fs0 conv source out fmt sk).exitCode = 0 ↔
        (fs0.pathExists source = true ∧ (main_run fs0 conv source out fmt sk).failures = [])) := by
  by_cases h1 : fs0.pathExists source = false
  · simp [main_run, h1]
  · have h1' : fs0.pathExists source = true := by simpa using h1
    by_cases h2 : (iter_input_files fs0 source).isEmpty = true
    · simp [main_run, h1', h2]
    · have h2' : (iter_input_files fs0 source).isEmpty = false := by simpa using h2
      by_cases h3 : (convert_files conv (iter_input_files fs0 source) source out fmt sk
          ⟨fs0.mkdirParents out, [], [], []⟩).failures.isEmpty = true
      · simp [main_run, h1', h2', h3, List.isEmpty_iff.mp h3]
      · have h3' : (convert_files conv (iter_input_files fs0 source) source out fmt sk
            ⟨fs0.mkdirParents out, [], [], []⟩).failures ≠ [] := by
          simpa [List.isEmpty_iff] using h3
        simp only [Bool.not_eq_true] at h3
        simp [main_run, h1', h2', h3, h3']

theorem exit_code_trichotomy_witness :
    (main_run ⟨[]⟩ convAllOk ["missing"] ["out"] none false).attempted = []
    ∧ (main_run ⟨[]⟩ convAllOk ["missing"] ["out"] none false).exitCode = 1 :=
  ⟨(exit_code_trichotomy ⟨[]⟩ convAllOk ["missing"] ["out"] none false).2.2.1 (by decide),
   by decide⟩

/-- C5: the batch is never aborted: every file of the list ends up attempted
or skipped, with a missing converter every attempted file is recorded as a
failure, and a run of the driver with a missing converter that attempts at
least one file exits with code 2. -/
theorem batch_never_aborts (conv : Converter) (files : List FPath) (source out : FPath)
    (fmt : Option String) (sk : Bool) (fs : FS) :
    ((convert_files conv files source out fmt sk ⟨fs, [], [], []⟩).attempted.length
        + (convert_files conv files source out fmt sk ⟨fs, [], [], []⟩).skipped.length
      = files.length)
    ∧ (conv.found = false →
        (convert_files conv files source out fmt sk ⟨fs, [], [], []⟩).failures
          = (convert_files conv files source out fmt sk ⟨fs, [], [], []⟩).attempted)
    ∧ (conv.found = false → sk = false →
        (convert_files conv files source out fmt sk ⟨fs, [], [], []⟩).failures = files)
    ∧ (conv.found = false → fs.pathExists source = true →
        (main_run fs conv source out fmt sk).attempted ≠ [] →
        (main_run fs conv source out fmt sk).exitCode = 2) := by
  refine ⟨?_, fun hfound => ?_, fun hfound hsk => ?_, fun hfound hsrc hatt => ?_⟩
  · simpa using convert_files_length conv source out fmt sk files ⟨fs, [], [], []⟩
  · exact convert_files_failures_attempted conv source out fmt sk hfound files
      ⟨fs, [], [], []⟩ rfl
  · subst hsk
    simpa using convert_files_all_fail conv source out fmt hfound files ⟨fs, [], [], []⟩
  · by_cases h2 : (iter_input_files fs source).isEmpty = true
    · exact absurd (by simp [main_run, hsrc, h2]) hatt
    · have h2' : (iter_input_files fs source).isEmpty = false := by simpa using h2
      have hfa := convert_files_failures_attempted conv source out fmt sk hfound
        (iter_input_files fs source) ⟨fs.mkdirParents out, [], [], []⟩ rfl
      have hattst : (main_run fs conv source out fmt sk).attempted
          = (convert_files conv (iter_input_files fs source) source out fmt sk
              ⟨fs.mkdirParents out, [], [], []⟩).attempted := by
        simp only [main_run, hsrc, h2']
        simp only [Bool.true_eq_false, if_false, Bool.false_eq_true]
        split <;> rfl
      have hfne : (convert_files conv (iter_input_files fs source) source out fmt sk
          ⟨fs.mkdirParents out, [], [], []⟩).failures ≠ [] := by
        rw [hfa, ← hattst]
        exact hatt
      simp [main_run, hsrc, h2', hfne]

theorem batch_never_aborts_witness :
    ((convert_files convNotFound [["src", "a.pdf"], ["src", "b.md"]] ["src"] ["out"] none false
        ⟨fsBatch, [], [], []⟩).failures = [["src", "a.pdf"], ["src", "b.md"]])
    ∧ (main_run fsBatch convNotFound ["src"] ["out"] none false).exitCode = 2 :=
  ⟨(batch_never_aborts convNotFound [["src", "a.pdf"], ["src", "b.md"]] ["src"] ["out"]
      none false fsBatch).2.2.1 rfl rfl,
   (batch_never_aborts convNotFound [["src", "a.pdf"], ["src", "b.md"]] ["src"] ["out"]
      none false fsBatch).2.2.2 rfl (by decide) (by decide)⟩

/-- C6 as frozen is false: with `--skip-existing` set, `y.docx` is skipped
because `/out/yellow.txt` matches the glob `y*`, although no file in the
destination directory `/out` shares the stem `y`. -/
theorem skip_policy_counterexample :
    (convertStep convAllOk ["src"] ["out"] none true ⟨fsYellow, [], [], []⟩ ["src", "y.docx"]
        = ⟨fsYellow, [], [], [["src", "y.docx"]]⟩)
    ∧ (fsYellow.entries.all (fun e =>
        !(decide (e.1.dropLast = ["out"]) && decide (e.2 = EntryKind.file)
          && decide (pyStem (pathName e.1) = "y"))) = true) := by
  decide

/-- C6 amended: with the skip flag set, a file is skipped exactly when its
destination directory already exists and contains some entry — file or
directory — whose name starts with the input file's stem; a skipped file
leaves the state unchanged apart from the skip record, so it is neither
attempted nor counted as a failure. -/
theorem skip_policy (conv : Converter) (source out : FPath) (fmt : Option String)
    (st : BatchState) (f : FPath) :
    (st.fs.pathExists (destinationDir st.fs source out f) = true →
      globStem st.fs (destinationDir st.fs source out f) (pyStem (pathName f)) ≠ [] →
      convertStep conv source out fmt true st f = { st with skipped := st.skipped ++ [f] })
    ∧ ((st.fs.pathExists (destinationDir st.fs source out f) = false ∨
        globStem st.fs (destinationDir st.fs source out f) (pyStem (pathName f)) = []) →
      (convertStep conv source out fmt true st f).attempted = st.attempted ++ [f]) := by
  constructor
  · intro hex hglob
    have hglob' : (globStem st.fs (destinationDir st.fs source out f)
        (pyStem (pathName f))).isEmpty = false := by
      simpa [List.isEmpty_iff] using hglob
    simp only [convertStep]
    rw [if_pos]
    simp [hex, hglob']
  · intro hcond
    simp only [convertStep]
    rw [if_neg]
    rcases hcond with h | h
    · simp [h]
    · simp [h]

theorem skip_policy_witness :
    convertStep convAllOk ["src"] ["out"] none true ⟨fsSkipW, [], [], []⟩
        ["src", "sub", "y.docx"]
      = ⟨fsSkipW, [], [], [["src", "sub", "y.docx"]]⟩ :=
  (skip_policy convAllOk ["src"] ["out"] none ⟨fsSkipW, [], [], []⟩
    ["src", "sub", "y.docx"]).1 (by decide) (by decide)

/-- C7: the failure report is produced exactly when some failure occurred; it
lives at `OutputRoot/failed_conversions.txt` and its content is a header
line followed by one line per failed path, in failure order. -/
theorem failure_report_shape (fs0 : FS) (conv : Converter) (source out : FPath)
    (fmt : Option String) (sk : Bool) :
    (main_run fs0 conv source out fmt sk).report
      = if (main_run fs0 conv source out fmt sk).failures = [] then none
        else some (out ++ ["failed_conversions.txt"],
          linesOf ("Files that failed conversion:"
            :: (main_run fs0 conv source out fmt sk).failures.map pathStr)) := by
  by_cases h1 : fs0.pathExists source = false
  · simp [main_run, h1]
  · have h1' : fs0.pathExists source = true := by simpa using h1
    by_cases h2 : (iter_input_files fs0 source).isEmpty = true
    · simp [main_run, h1', h2]
    · have h2' : (iter_input_files fs0 source).isEmpty = false := by simpa using h2
      by_cases h3 : (convert_files conv (iter_input_files fs0 source) source out fmt sk
          ⟨fs0.mkdirParents out, [], [], []⟩).failures.isEmpty = true
      · simp [main_run, h1', h2', h3, List.isEmpty_iff.mp h3]
      · have h3' : (convert_files conv (iter_input_files fs0 source) source out fmt sk
            ⟨fs0.mkdirParents out, [], [], []⟩).failures ≠ [] := by
          simpa [List.isEmpty_iff] using h3
        simp only [Bool.not_eq_true] at h3
        simp [main_run, h1', h2', h3, h3', write_failure_report_lines]

/-- C8: the converter command line is
`docling [--to <fmt>] --output <dir> <input>` — the `--to` pair present
exactly when a (nonempty) format was supplied — and an invocation of an
installed converter is successful exactly when its exit code is 0. -/
theorem docling_invocation (conv : Converter) (fs : FS) (inputFile outputDir : FPath)
    (inp dir f : String) (fmt : Option String) :
    (f ≠ "" → doclingCmd inp dir (some f) = ["docling", "--to", f, "--output", dir, inp])
    ∧ (doclingCmd inp dir none = ["docling", "--output", dir, inp])
    ∧ (conv.found = true →
        ((run_docling conv fs inputFile outputDir fmt).2 = true ↔
          (conv.run (doclingCmd (pathStr inputFile) (pathStr outputDir) fmt)).returncode
            = 0)) := by
  refine ⟨fun hf => ?_, rfl, fun hfound => ?_⟩
  · have hf' : (f == "") = false := by simpa using hf
    simp [doclingCmd, formatFlag, hf']
  · simp [run_docling, hfound]

theorem docling_invocation_witness :
    (doclingCmd "/a/x.pdf" "/out" (some "md")
        = ["docling", "--to", "md", "--output", "/out", "/a/x.pdf"])
    ∧ ((run_docling convAllOk fsOne ["src", "a.pdf"] ["out"] none).2 = true ↔
        (convAllOk.run (doclingCmd (pathStr ["src", "a.pdf"]) (pathStr ["out"]) none)).returncode
          = 0) :=
  ⟨(docling_invocation convAllOk fsOne ["src", "a.pdf"] ["out"] "/a/x.pdf" "/out" "md"
      none).1 (by decide),
   (docling_invocation convAllOk fsOne ["src", "a.pdf"] ["out"] "/a/x.pdf" "/out" "md"
      none).2.2 (by decide)⟩

/-- C9 as frozen is false: a run over an existing source directory that
enumerates zero supported files exits 0 without ever creating the output
root — `main` returns before the `output_root.mkdir` call. -/
theorem output_root_counterexample :
    ((⟨[(["src"], EntryKind.dir)]⟩ : FS).pathExists ["src"] = true)
    ∧ ((main_run ⟨[(["src"], EntryKind.dir)]⟩ convAllOk ["src"] ["out"] none false).exitCode
        = 0)
    ∧ ((main_run ⟨[(["src"], EntryKind.dir)]⟩ convAllOk ["src"] ["out"] none
        false).fs.pathExists ["out"] = false) := by
  decide

/-- C9 amended: whenever the source exists and at least one file is
enumerated (and the output root is not the filesystem root itself), the
output root is a directory by the end of the run; with zero enumerated
files the run exits 0 without creating it. -/
theorem output_root_created (fs0 : FS) (conv : Converter) (source out : FPath)
    (fmt : Option String) (sk : Bool)
    (hsrc : fs0.pathExists source = true)
    (hfiles : (iter_input_files fs0 source).isEmpty = false)
    (hout : out ≠ []) :
    (main_run fs0 conv source out fmt sk).fs.isDir out = true := by
  have hbase : (fs0.mkdirParents out).isDir out = true :=
    isDir_mkdirParents_self fs0 out hout
  have hst := @convert_files_isDir conv source out fmt sk out
    (iter_input_files fs0 source) ⟨fs0.mkdirParents out, [], [], []⟩ hbase
  simp only [main_run, hsrc, hfiles, Bool.true_eq_false, if_false, Bool.false_eq_true]
  split
  · exact hst
  · exact isDir_addFile_of _ (isDir_mkdirParents_of _ hst)

theorem output_root_created_witness :
    (main_run fsOne convAllOk ["src"] ["out"] none false).fs.isDir ["out"] = true :=
  output_root_created fsOne convAllOk ["src"] ["out"] none false
    (by decide) (by decide) (by decide)

/-- C10: the interactive prompt loop only ever returns a path that exists
and is a directory; an existing regular file is rejected and the loop
moves on to the next answer — unlike the batch driver, which accepts a
single regular file as source (its exit code is then never 1). -/
theorem prompt_requires_directory (fs : FS) :
    (∀ answers p, solicitar_caminho_diretorio fs answers = some p →
        fs.pathExists p = true ∧ fs.isDir p = true)
    ∧ (∀ p rest, fs.isDir p = false →
        solicitar_caminho_diretorio fs (some p :: rest)
          = solicitar_caminho_diretorio fs rest)
    ∧ (∀ conv out fmt sk src, fs.isFile src = true →
        (main_run fs conv src out fmt sk).exitCode ≠ 1) := by
  refine ⟨?_, ?_, ?_⟩
  · intro answers
    induction answers with
    | nil => intro p h; simp [solicitar_caminho_diretorio] at h
    | cons a rest ih =>
      intro p h
      match a with
      | none => exact ih p h
      | some q =>
        by_cases hq : (fs.pathExists q && fs.isDir q) = true
        · rw [solicitar_caminho_diretorio, if_pos hq] at h
          cases h
          exact ⟨(Bool.and_eq_true_iff.mp hq).1, (Bool.and_eq_true_iff.mp hq).2⟩
        · rw [solicitar_caminho_diretorio, if_neg hq] at h
          exact ih p h
  · intro p rest hp
    rw [solicitar_caminho_diretorio, if_neg]
    simp [hp]
  · intro conv out fmt sk src h
    have hex : fs.pathExists src = true := by simp [FS.pathExists, h]
    have hne : (iter_input_files fs src).isEmpty = false := by
      simp [iter_input_files, h]
    simp only [main_run, hex, hne, Bool.true_eq_false, if_false, Bool.false_eq_true]
    split <;> simp

theorem prompt_requires_directory_witness :
    (FS.pathExists fsPrompt ["d"] = true ∧ FS.isDir fsPrompt ["d"] = true)
    ∧ (solicitar_caminho_diretorio fsPrompt [some ["f.txt"], some ["d"]]
        = solicitar_caminho_diretorio fsPrompt [some ["d"]])
    ∧ (main_run fsPrompt convAllOk ["f.txt"] ["out"] none false).exitCode ≠ 1 :=
  ⟨(prompt_requires_directory fsPrompt).1 [some ["f.txt"], some ["d"]] ["d"] (by decide),
   (prompt_requires_directory fsPrompt).2.1 ["f.txt"] [some ["d"]] (by decide),
   (prompt_requires_directory fsPrompt).2.2 convAllOk ["out"] none false ["f.txt"]
     (by decide)⟩

end DoclingDir
